import Mathlib

/-!
# Verification of the FOIA archive metadata/crawl pipeline

A shallow embedding of the core of the `foia_archive` package
(`storage.py`, `discovery.py`, `scraper_core.py`) together with proofs
about its reconciliation, pagination, extraction and crawl behaviour.

Modelling conventions:
* The SQLite catalog is a record of four row lists plus the AUTOINCREMENT
  counters; `INSERT OR IGNORE` / `SELECT` pairs become pure functions on it.
* `json.dumps` of a raw payload is modelled by treating the payload as an
  opaque string stored verbatim.
* Network calls are environments (`String → Option _`); `none` models a
  raised transport error / non-2xx response (`raise_for_status`).
* The HTML parser is modelled by taking a fetched page as its list of
  anchor tags (`href` attribute value and visible text).
* Successive `datetime.utcnow()` calls are modelled by a clock function
  `Nat → String` indexed by a call counter.
-/

namespace FOIA

/-! ## storage.py / models.py — the catalog -/

structure AgencyRow where
  id : Nat
  slug : String
  name : String
  raw_json : String
deriving DecidableEq

structure OfficeRow where
  id : Nat
  slug : String
  name : String
  agency_id : Nat
  raw_json : String
deriving DecidableEq

structure ReadingRoomRow where
  id : Nat
  url : String
  label : String
  level : String
  agency_id : Option Nat
  office_id : Option Nat
  last_crawled_at : Option String
deriving DecidableEq

structure DocumentRow where
  id : Nat
  url : String
  local_path : Option String
  filename : String
  file_type : String
  title : String
  description : Option String
  agency_id : Option Nat
  office_id : Option Nat
  reading_room_id : Option Nat
  published_date : Option String
  discovered_at : String
  downloaded_at : Option String
deriving DecidableEq

/-- The catalog database: the four tables of `models.py` plus the
AUTOINCREMENT counters (SQLite starts them at 1 and never reuses ids). -/
structure Db where
  agencies : List AgencyRow
  offices : List OfficeRow
  reading_rooms : List ReadingRoomRow
  documents : List DocumentRow
  next_agency_id : Nat
  next_office_id : Nat
  next_room_id : Nat
  next_document_id : Nat
deriving DecidableEq

def emptyDb : Db := ⟨[], [], [], [], 1, 1, 1, 1⟩

/-- `storage.upsert_agency`: `INSERT OR IGNORE INTO agencies (slug, name,
raw_json)` followed by `SELECT id FROM agencies WHERE slug = ?`.  The
returned `Option Nat` is the fetched id (`none` would be the
`fetchone()[0]` `TypeError`; it never occurs). -/
def upsert_agency (db : Db) (slug name raw_json : String) : Db × Option Nat :=
  let db1 :=
    if db.agencies.any (fun r => r.slug == slug) then db
    else { db with
            agencies := db.agencies ++ [⟨db.next_agency_id, slug, name, raw_json⟩],
            next_agency_id := db.next_agency_id + 1 }
  (db1, (db1.agencies.find? (fun r => r.slug == slug)).map (fun r => r.id))

/-- `storage.upsert_office`: same `INSERT OR IGNORE` / `SELECT` pattern on
the `offices` table, keyed by `slug`. -/
def upsert_office (db : Db) (slug name : String) (agency_id : Nat) (raw_json : String) :
    Db × Option Nat :=
  let db1 :=
    if db.offices.any (fun r => r.slug == slug) then db
    else { db with
            offices := db.offices ++ [⟨db.next_office_id, slug, name, agency_id, raw_json⟩],
            next_office_id := db.next_office_id + 1 }
  (db1, (db1.offices.find? (fun r => r.slug == slug)).map (fun r => r.id))

/-- `storage.upsert_reading_room`: `INSERT OR IGNORE` / `SELECT` on
`reading_rooms`, keyed by `url` (`last_crawled_at` starts NULL). -/
def upsert_reading_room (db : Db) (url label level : String)
    (agency_id office_id : Option Nat) : Db × Option Nat :=
  let db1 :=
    if db.reading_rooms.any (fun r => r.url == url) then db
    else { db with
            reading_rooms :=
              db.reading_rooms ++ [⟨db.next_room_id, url, label, level, agency_id, office_id, none⟩],
            next_room_id := db.next_room_id + 1 }
  (db1, (db1.reading_rooms.find? (fun r => r.url == url)).map (fun r => r.id))

/-- `storage.document_exists`: `SELECT 1 FROM documents WHERE url = ?`. -/
def document_exists (db : Db) (url : String) : Bool :=
  db.documents.any (fun d => d.url == url)

/-- `storage.insert_document`: a plain `INSERT INTO documents`; violating
the `url UNIQUE` constraint raises (`none`).  `local_path`, `downloaded_at`
and `description` are not in the column list, so they default to NULL. -/
def insert_document (db : Db) (url title file_type filename : String)
    (agency_id office_id reading_room_id : Option Nat)
    (discovered_at : String) (published_date : Option String) : Option (Db × Nat) :=
  if db.documents.any (fun d => d.url == url) then none
  else
    some ({ db with
            documents := db.documents ++
              [⟨db.next_document_id, url, none, filename, file_type, title, none,
                agency_id, office_id, reading_room_id, published_date, discovered_at, none⟩],
            next_document_id := db.next_document_id + 1 },
          db.next_document_id)

/-- `storage.update_download_metadata`: `UPDATE documents SET local_path = ?,
downloaded_at = ? WHERE id = ?`. -/
def update_download_metadata (db : Db) (document_id : Nat)
    (local_path downloaded_at : String) : Db :=
  { db with
    documents := db.documents.map (fun d =>
      if d.id == document_id then
        { d with local_path := some local_path, downloaded_at := some downloaded_at }
      else d) }

/-- `storage.update_reading_room_crawled`: `UPDATE reading_rooms SET
last_crawled_at = ? WHERE id = ?`. -/
def update_reading_room_crawled (db : Db) (rr_id : Nat) (timestamp : String) : Db :=
  { db with
    reading_rooms := db.reading_rooms.map (fun r =>
      if r.id == rr_id then { r with last_crawled_at := some timestamp } else r) }

/-- `storage.list_reading_rooms`: `SELECT * FROM reading_rooms ORDER BY id`,
appending `LIMIT ?` only when the Python `limit` argument is truthy
(`if limit:` — so both `None` and `0` leave the query unlimited). -/
def list_reading_rooms (db : Db) (limit : Option Nat) : List ReadingRoomRow :=
  let rows := db.reading_rooms.insertionSort (fun a b => a.id ≤ b.id)
  match limit with
  | none => rows
  | some n => if n = 0 then rows else rows.take n

/-! ## discovery.py — paginated directory fetch -/

/-- The value found under `links["next"]` in a JSON:API payload: either a
bare string or a dict (with an optional `href`).  `isEmptyDict` records a
`{}` value, which is falsy in Python. -/
inductive NextVal where
  | nstr (s : String)
  | ndict (isEmptyDict : Bool) (href : Option String)
deriving DecidableEq

/-- Python truthiness test `not raw_next` for `links.get("next")`. -/
def rawNextFalsy : Option NextVal → Bool
  | none => true
  | some (.nstr s) => s == ""
  | some (.ndict isEmptyDict _) => isEmptyDict

/-- `raw_next.get("href") if isinstance(raw_next, dict) else raw_next`. -/
def extractHref : NextVal → Option String
  | .nstr s => some s
  | .ndict _ href => href

/-- One page of a JSON:API endpoint, as `_fetch_paginated` reads it:
`payload.get("data") or []`, `payload.get("included") or []`, and
`(payload.get("links") or {}).get("next")`. -/
structure Page (α : Type) where
  data : List α
  included : List α
  links_next : Option NextVal

/-- `params.setdefault("page[size]", 100)` — the page size requested on the
first call.  The loop body never consults it. -/
def requestedPageSize : Nat := 100

/-- `f"{base_url.rstrip('/')}/{path.lstrip('/')}"`. -/
def initialUrl (base_url path : String) : String :=
  String.mk ((base_url.data.reverse.dropWhile (fun c => c = '/')).reverse)
    ++ "/" ++ String.mk (path.data.dropWhile (fun c => c = '/'))

/-- Outcome of the `while next_url:` loop of `_fetch_paginated`, carrying
the trace of URLs passed to `fetch_json`.  `raised` models an exception
propagating out of `fetch_json`; `diverged` is fuel exhaustion (the loop
not having finished within `fuel` iterations). -/
inductive LoopResult (α : Type) where
  | done (results included : List α) (requests : List String)
  | raised (requests : List String)
  | diverged (requests : List String)
deriving DecidableEq

def LoopResult.requests {α : Type} : LoopResult α → List String
  | .done _ _ reqs => reqs
  | .raised reqs => reqs
  | .diverged reqs => reqs

/-- The body of `_fetch_paginated`'s `while next_url:` loop
(discovery.py lines 33–54), one constructor case per iteration. -/
def fetchLoop (α : Type) (env : String → Option (Page α)) :
    Nat → String → List String → List α → List α → List String → LoopResult α
  | 0, _, _, _, _, reqs => .diverged reqs
  | Nat.succ fuel, next_url, seen_urls, results, included, reqs =>
    if next_url == "" then .done results included reqs
    else if seen_urls.contains next_url then .done results included reqs
    else
      match env next_url with
      | none => .raised (reqs ++ [next_url])
      | some payload =>
        let reqs := reqs ++ [next_url]
        let seen_urls := next_url :: seen_urls
        let results := results ++ payload.data
        let included := included ++ payload.included
        if rawNextFalsy payload.links_next || payload.data.isEmpty then
          .done results included reqs
        else
          match payload.links_next with
          | none => .done results included reqs
          | some raw_next =>
            match extractHref raw_next with
            | none => .done results included reqs
            | some next_href =>
              if next_href == "" then .done results included reqs
              else fetchLoop α env fuel next_href seen_urls results included reqs

/-- Run `_fetch_paginated`'s loop from the initial URL with empty
accumulators. -/
def fetch_paginated_run (α : Type) (env : String → Option (Page α)) (fuel : Nat)
    (base_url path : String) : LoopResult α :=
  fetchLoop α env fuel (initialUrl base_url path) [] [] [] []

/-- What `_fetch_paginated` hands back to its caller.  `ret v` is a normal
return of the Python value `v`, where `none` is Python `None`. -/
inductive PagRet (α : Type) where
  | ret (v : Option (List α × List α))
  | raised
  | diverged
deriving DecidableEq

/-- `discovery._fetch_paginated` as the caller sees it.  The function body
(lines 19–54) ends at the close of the `while` loop with **no return
statement**, so a normal loop exit returns Python `None`. -/
def fetch_paginated (α : Type) (env : String → Option (Page α)) (fuel : Nat)
    (base_url path : String) : PagRet α :=
  match fetch_paginated_run α env fuel base_url path with
  | .done _ _ _ => .ret none
  | .raised _ => .raised
  | .diverged _ => .diverged

/-- `discovery.fetch_agencies`: `agencies, _ = _fetch_paginated(base_url,
"agency", ...)` — tuple unpacking succeeds only on a pair; unpacking
`None` raises `TypeError` (modelled, like a propagated exception, as
`none`). -/
def fetch_agencies (α : Type) (env : String → Option (Page α)) (fuel : Nat)
    (base_url : String) : Option (List α) :=
  match fetch_paginated α env fuel base_url "agency" with
  | .ret (some (agencies, _)) => some agencies
  | _ => none

/-! ## URL helpers — models of `urllib.parse.urlparse` / `urljoin`

The models cover http(s)-style URLs as they occur in the crawler: fragment
after the first `#`, query after the first `?`, authority after `://` up to
the next `/`.  Dot-segment normalization and non-hierarchical schemes are
out of the model. -/

/-- Python `str.split(sep)` for a single-character separator, on the
character list: always returns a non-empty list of (possibly empty)
parts. -/
def splitChar (c : Char) : List Char → List (List Char)
  | [] => [[]]
  | x :: xs =>
    match splitChar c xs with
    | [] => [[]]
    | h :: t => if x = c then [] :: h :: t else (x :: h) :: t

/-- Python `l.split(sep)[-1]` for a single-character separator: the part
after the last occurrence of `c` (the whole list when `c` is absent). -/
def lastPart (c : Char) (l : List Char) : List Char :=
  (splitChar c l).getLastD []

/-- Split a URL character list at `://`, returning the scheme part and the
remainder, when present. -/
def splitSchemeSep : List Char → Option (List Char × List Char)
  | [] => none
  | ':' :: '/' :: '/' :: rest => some ([], rest)
  | x :: xs => (splitSchemeSep xs).map (fun p => (x :: p.1, p.2))

/-- Model of `urlparse(url).path`: strip the fragment (first `#`) and the
query (first `?`), then drop `scheme://authority` when present. -/
def urlPath (url : String) : String :=
  let noFrag := url.data.takeWhile (fun c => c ≠ '#')
  let noQuery := noFrag.takeWhile (fun c => c ≠ '?')
  match splitSchemeSep noQuery with
  | some p => String.mk (p.2.dropWhile (fun c => c ≠ '/'))
  | none => String.mk noQuery

/-- `scheme://authority` prefix of an absolute URL (empty for a relative
reference). -/
def schemeAndAuthority (l : List Char) : List Char :=
  match splitSchemeSep l with
  | some p => p.1 ++ [':', '/', '/'] ++ p.2.takeWhile (fun c => c ≠ '/')
  | none => []

/-- Everything up to and including the last `/` (empty when there is
none). -/
def upToLastSlash (l : List Char) : List Char :=
  (l.reverse.dropWhile (fun c => c ≠ '/')).reverse

/-- Model of `urljoin(base, href)` for the cases arising here: an absolute
`href` wins; an `href` starting with `/` replaces the base path; otherwise
`href` replaces the base path's last segment. -/
def urljoin (base href : String) : String :=
  if (splitSchemeSep href.data).isSome then href
  else
    match href.data with
    | '/' :: _ => String.mk (schemeAndAuthority base.data ++ href.data)
    | _ => String.mk (upToLastSlash base.data ++ href.data)

/-! ## scraper_core.py — candidate extraction and the crawl -/

/-- `scraper_core.ALLOWED_EXTENSIONS`. -/
def ALLOWED_EXTENSIONS : List String := ["pdf", "doc", "docx", "xls", "xlsx", "zip"]

/-- An `<a>` tag with an `href` attribute, as BeautifulSoup's
`find_all("a", href=True)` yields it: the attribute value and the tag's
text. -/
structure Anchor where
  href : String
  text : String
deriving DecidableEq

/-- One extracted candidate (`{"url": ..., "title": ...}`). -/
structure Link where
  url : String
  title : String
deriving DecidableEq

/-- `ext = path.split(".")[-1].lower() if "." in path else ""` — the
extension expression used both in `extract_document_links` and in
`crawl_reading_room`. -/
def extOfPath (path : String) : String :=
  if '.' ∈ path.data then String.mk ((lastPart '.' path.data).map Char.toLower) else ""

/-- `path.split("/")[-1]`. -/
def finalSegment (path : String) : String :=
  String.mk (lastPart '/' path.data)

/-- `tag.get_text(strip=True) or href`. -/
def linkTitle (a : Anchor) : String :=
  if a.text.trim == "" then a.href else a.text.trim

/-- `scraper_core.extract_document_links`: for each anchor, skip a falsy
`href`, resolve it against the page URL, and keep it when the extension
computed from the parsed path is in the allow-list. -/
def extract_document_links : List Anchor → String → List Link
  | [], _ => []
  | a :: rest, base_url =>
    let tail := extract_document_links rest base_url
    if a.href == "" then tail
    else
      let absolute_url := urljoin base_url a.href
      let ext := extOfPath (urlPath absolute_url)
      if ext ∈ ALLOWED_EXTENSIONS then ⟨absolute_url, linkTitle a⟩ :: tail
      else tail

/-- The spec's own retention rule for §4.3 / C7: keep a link exactly when
the extension of the **final path segment** of its absolute URL — compared
case-insensitively, query string and fragment ignored — is in the
allow-list.  (Anchors with a falsy `href` are not links and are skipped on
both sides.) -/
def spec_ext (path : String) : String :=
  let seg := lastPart '/' path.data
  if '.' ∈ seg then String.mk ((lastPart '.' seg).map Char.toLower) else ""

/-- Candidate extraction as the spec words it (the comparison point for
C7's if-and-only-if). -/
def spec_extract : List Anchor → String → List Link
  | [], _ => []
  | a :: rest, base_url =>
    let tail := spec_extract rest base_url
    if a.href ≠ "" ∧ spec_ext (urlPath (urljoin base_url a.href)) ∈ ALLOWED_EXTENSIONS
    then ⟨urljoin base_url a.href, linkTitle a⟩ :: tail
    else tail

/-- The crawl's outside world: fetching+parsing a room page (`none` models
a transport error or non-2xx), `download_document` (`some` is the saved
local path on success, `none` a logged failure), and the `utcnow` clock. -/
structure CrawlEnv where
  fetchPage : String → Option (List Anchor)
  download : String → Option String
  clock : Nat → String

/-- State threaded through `crawl_reading_room`'s candidate loop:
the connection's database view, the `downloaded` counter, the clock call
counter, the urls passed to `download_document`, and whether an
`IntegrityError` escaped `insert_document` (never happens; modelled for
fidelity). -/
structure LoopSt where
  db : Db
  downloaded : Nat
  tick : Nat
  attempts : List String
  raised : Bool
deriving DecidableEq

/-- `max_docs is not None and downloaded >= max_docs` — the last two
conjuncts of the dry-run cap test. -/
def capReached (max_docs : Option Nat) (downloaded : Nat) : Bool :=
  match max_docs with
  | some m => decide (m ≤ downloaded)
  | none => false

/-- The `for link in links:` loop of `crawl_reading_room`
(scraper_core.py lines 103–134). -/
def crawlLoop (env : CrawlEnv) (rr : ReadingRoomRow) (rr_id : Nat)
    (dry_run : Bool) (max_docs : Option Nat) : List Link → LoopSt → LoopSt
  | [], st => st
  | link :: rest, st =>
    let url := link.url
    let title := if link.title == "" then url else link.title
    let path := urlPath url
    let ext := extOfPath path
    let filename_hint := if finalSegment path == "" then "document" else finalSegment path
    if document_exists st.db url then
      crawlLoop env rr rr_id dry_run max_docs rest st
    else if dry_run && capReached max_docs st.downloaded then
      st
    else
      let discovered_at := env.clock st.tick
      match insert_document st.db url title ext filename_hint
          rr.agency_id rr.office_id (some rr_id) discovered_at none with
      | none => { st with raised := true }
      | some (db1, doc_id) =>
        if dry_run then
          crawlLoop env rr rr_id dry_run max_docs rest
            { st with db := db1, downloaded := st.downloaded + 1, tick := st.tick + 1 }
        else
          match env.download url with
          | some local_path =>
            crawlLoop env rr rr_id dry_run max_docs rest
              { st with
                db := update_download_metadata db1 doc_id local_path (env.clock (st.tick + 1)),
                downloaded := st.downloaded + 1,
                tick := st.tick + 2,
                attempts := st.attempts ++ [url] }
          | none =>
            crawlLoop env rr rr_id dry_run max_docs rest
              { st with
                db := db1,
                downloaded := st.downloaded + 1,
                tick := st.tick + 1,
                attempts := st.attempts ++ [url] }

/-- What `crawl_reading_room` leaves behind: the database, the download
attempts made, and whether an exception escaped. -/
structure CrawlResult where
  db : Db
  attempts : List String
  raised : Bool
deriving DecidableEq

/-- `scraper_core.crawl_reading_room` (lines 79–137): look the room up;
on a fetch failure log and return (lines 94–97) — without touching the
room row; otherwise extract candidates, run the loop, and update the
room's `last_crawled_at` (line 136). -/
def crawl_reading_room (env : CrawlEnv) (db : Db) (rr_id : Nat)
    (dry_run : Bool) (max_docs : Option Nat) : CrawlResult :=
  match db.reading_rooms.find? (fun r => r.id == rr_id) with
  | none => ⟨db, [], false⟩
  | some rr =>
    match env.fetchPage rr.url with
    | none => ⟨db, [], false⟩
    | some anchors =>
      let links := extract_document_links anchors rr.url
      let st := crawlLoop env rr rr_id dry_run max_docs links ⟨db, 0, 0, [], false⟩
      if st.raised then ⟨st.db, st.attempts, true⟩
      else ⟨update_reading_room_crawled st.db rr_id (env.clock st.tick), st.attempts, false⟩

/-! ## Lemmas about `splitChar` / `lastPart` (for claim C7) -/

theorem splitChar_ne_nil (c : Char) (l : List Char) : splitChar c l ≠ [] := by
  cases l with
  | nil => simp [splitChar]
  | cons x xs =>
    simp only [splitChar]
    cases h : splitChar c xs with
    | nil => simp
    | cons hd tl => by_cases hx : x = c <;> simp [hx]

theorem splitChar_of_not_mem (c : Char) (l : List Char) (h : c ∉ l) :
    splitChar c l = [l] := by
  induction l with
  | nil => rfl
  | cons x xs ih =>
    have hx : ¬x = c := fun hxc => h (hxc ▸ List.mem_cons_self x xs)
    have hxs : c ∉ xs := fun hm => h (List.mem_cons_of_mem x hm)
    simp only [splitChar, ih hxs, if_neg hx]

theorem two_le_length_splitChar (c : Char) (l : List Char) (h : c ∈ l) :
    2 ≤ (splitChar c l).length := by
  induction l with
  | nil => cases h
  | cons x xs ih =>
    simp only [splitChar]
    cases hr : splitChar c xs with
    | nil => exact absurd hr (splitChar_ne_nil c xs)
    | cons hd tl =>
      by_cases hx : x = c
      · simp [hx]
      · have hm : c ∈ xs := by
          rcases List.mem_cons.1 h with h1 | h1
          · exact absurd h1.symm hx
          · exact h1
        have := ih hm
        rw [hr] at this
        simpa [hx] using this

theorem getLastD_irrel {α : Type} (t : List α) (h : t ≠ []) (d₁ d₂ : α) :
    t.getLastD d₁ = t.getLastD d₂ := by
  cases t with
  | nil => exact absurd rfl h
  | cons y ys => rfl

theorem getLastD_cons_ne_nil {α : Type} (a : α) (t : List α) (h : t ≠ []) (d : α) :
    (a :: t).getLastD d = t.getLastD d := by
  cases t with
  | nil => exact absurd rfl h
  | cons y ys => rfl

theorem lastPart_nil (c : Char) : lastPart c [] = [] := rfl

theorem lastPart_cons (c x : Char) (xs : List Char) :
    lastPart c (x :: xs) =
      if c ∈ xs then lastPart c xs else (if x = c then xs else x :: xs) := by
  simp only [lastPart, splitChar]
  cases hr : splitChar c xs with
  | nil => exact absurd hr (splitChar_ne_nil c xs)
  | cons hd tl =>
    by_cases hm : c ∈ xs
    · have hlen := two_le_length_splitChar c xs hm
      rw [hr] at hlen
      have htl : tl ≠ [] := by
        cases tl with
        | nil => simp at hlen
        | cons a as => simp
      rw [if_pos hm]
      by_cases hx : x = c
      · simp only [if_pos hx]
        exact getLastD_cons_ne_nil [] (hd :: tl) (by simp) []
      · simp only [if_neg hx]
        rw [getLastD_cons_ne_nil (x :: hd) tl htl [], getLastD_cons_ne_nil hd tl htl []]
    · rw [splitChar_of_not_mem c xs hm] at hr
      injection hr with h1 h2
      subst h1
      subst h2
      rw [if_neg hm]
      by_cases hx : x = c <;> simp [hx]

theorem mem_of_mem_lastPart (a c : Char) (l : List Char) (h : a ∈ lastPart c l) :
    a ∈ l := by
  induction l with
  | nil => rw [lastPart_nil] at h; cases h
  | cons x xs ih =>
    rw [lastPart_cons] at h
    by_cases hm : c ∈ xs
    · rw [if_pos hm] at h
      exact List.mem_cons_of_mem x (ih h)
    · rw [if_neg hm] at h
      by_cases hx : x = c
      · rw [if_pos hx] at h
        exact List.mem_cons_of_mem x h
      · rwa [if_neg hx] at h

theorem lastPart_lastPart (c d : Char) (l : List Char)
    (h : c ∈ lastPart d l) : lastPart c l = lastPart c (lastPart d l) := by
  induction l with
  | nil => rw [lastPart_nil] at h; cases h
  | cons x xs ih =>
    rw [lastPart_cons d x xs] at h ⊢
    by_cases hdm : d ∈ xs
    · rw [if_pos hdm] at h ⊢
      have hcm : c ∈ xs := mem_of_mem_lastPart c d xs h
      rw [lastPart_cons c x xs, if_pos hcm]
      exact ih h
    · rw [if_neg hdm] at h ⊢
      by_cases hx : x = d
      · rw [if_pos hx] at h ⊢
        rw [lastPart_cons c x xs, if_pos h]
      · rw [if_neg hx] at h ⊢

theorem mem_lastPart_of_not_mem_seg (c d : Char) (hcd : c ≠ d) (l : List Char)
    (h1 : c ∈ l) (h2 : c ∉ lastPart d l) : d ∈ lastPart c l := by
  induction l with
  | nil => cases h1
  | cons x xs ih =>
    by_cases hcx : c ∈ xs
    · rw [lastPart_cons c x xs, if_pos hcx]
      rw [lastPart_cons d x xs] at h2
      by_cases hdx : d ∈ xs
      · rw [if_pos hdx] at h2
        exact ih hcx h2
      · rw [if_neg hdx] at h2
        by_cases hx : x = d
        · rw [if_pos hx] at h2
          exact absurd hcx h2
        · rw [if_neg hx] at h2
          exact absurd (List.mem_cons_of_mem x hcx) h2
    · have hxc : x = c := by
        rcases List.mem_cons.1 h1 with h | h
        · exact h.symm
        · exact absurd h hcx
      rw [lastPart_cons c x xs, if_neg hcx, if_pos hxc]
      by_contra hd
      rw [lastPart_cons d x xs] at h2
      have hdx : d ∉ xs := hd
      rw [if_neg hdx] at h2
      have hx : ¬x = d := fun hx => hcd (hxc ▸ hx)
      rw [if_neg hx] at h2
      exact h2 (hxc ▸ List.mem_cons_self x xs)

theorem toLower_slash_mem (l : List Char) (h : '/' ∈ l) :
    '/' ∈ l.map Char.toLower := by
  exact List.mem_map.2 ⟨'/', h, by decide⟩

theorem mk_slash_not_allowed (l : List Char) (h : '/' ∈ l) :
    String.mk l ∉ ALLOWED_EXTENSIONS := by
  intro hmem
  simp only [ALLOWED_EXTENSIONS, List.mem_cons, List.not_mem_nil, or_false] at hmem
  rcases hmem with e | e | e | e | e | e <;>
    · have hd : l = _ := congrArg String.data e
      rw [hd] at h
      revert h
      decide

theorem empty_not_allowed : ("" : String) ∉ ALLOWED_EXTENSIONS := by decide

/-- The heart of C7: the code computes the extension from the **whole** URL
path (`path.split(".")[-1]`), the spec from the final path segment; the two
agree on allow-list membership. -/
theorem ext_mem_iff (p : String) :
    extOfPath p ∈ ALLOWED_EXTENSIONS ↔ spec_ext p ∈ ALLOWED_EXTENSIONS := by
  unfold extOfPath spec_ext
  by_cases hs : '.' ∈ lastPart '/' p.data
  · have hp : '.' ∈ p.data := mem_of_mem_lastPart '.' '/' p.data hs
    rw [if_pos hp, if_pos hs, lastPart_lastPart '.' '/' p.data hs]
  · by_cases hp : '.' ∈ p.data
    · rw [if_pos hp, if_neg hs]
      constructor
      · intro hmem
        have hsl : '/' ∈ lastPart '.' p.data :=
          mem_lastPart_of_not_mem_seg '.' '/' (by decide) p.data hp hs
        exact absurd hmem (mk_slash_not_allowed _ (toLower_slash_mem _ hsl))
      · intro hmem
        exact absurd hmem empty_not_allowed
    · rw [if_neg hp, if_neg hs]

/-- Candidate extraction agrees with the spec's final-segment retention
rule, anchor by anchor. -/
theorem extract_eq_spec_extract (anchors : List Anchor) (base_url : String) :
    extract_document_links anchors base_url = spec_extract anchors base_url := by
  induction anchors with
  | nil => rfl
  | cons a rest ih =>
    simp only [extract_document_links, spec_extract]
    by_cases h0 : a.href = ""
    · simp [h0, ih]
    · by_cases hm : spec_ext (urlPath (urljoin base_url a.href)) ∈ ALLOWED_EXTENSIONS
      · simp [h0, hm, ih, (ext_mem_iff (urlPath (urljoin base_url a.href))).2 hm]
      · have hc : extOfPath (urlPath (urljoin base_url a.href)) ∉ ALLOWED_EXTENSIONS :=
          fun hc => hm ((ext_mem_iff (urlPath (urljoin base_url a.href))).1 hc)
        simp [h0, hm, ih, hc]

/-! ## Lemmas about the insert-or-fetch upserts (for claims C2, C3) -/

theorem isSome_map_of_isSome {α β : Type} (o : Option α) (f : α → β)
    (h : o.isSome = true) : (o.map f).isSome = true := by
  cases o with
  | none => simp at h
  | some a => rfl

theorem find?_isSome_of_any {α : Type} (l : List α) (p : α → Bool)
    (h : l.any p = true) : (l.find? p).isSome = true := by
  rw [List.find?_isSome]
  simpa [List.any_eq_true] using h

theorem any_slug_after_upsert_agency (db : Db) (s n r : String) :
    (upsert_agency db s n r).1.agencies.any (fun row => row.slug == s) = true := by
  unfold upsert_agency
  by_cases h : db.agencies.any (fun row => row.slug == s) = true
  · simp [h]
  · simp only [Bool.not_eq_true] at h
    simp [h, List.any_append]

theorem upsert_agency_eq_of_any (db : Db) (s n r : String)
    (h : db.agencies.any (fun row => row.slug == s) = true) :
    upsert_agency db s n r =
      (db, (db.agencies.find? (fun row => row.slug == s)).map (fun row => row.id)) := by
  simp [upsert_agency, h]

/-- A second `upsert_agency` with the same slug is a no-op returning the
same identity, whatever name/payload it carries. -/
theorem upsert_agency_idem (db : Db) (s n r n' r' : String) :
    upsert_agency (upsert_agency db s n r).1 s n' r' = upsert_agency db s n r := by
  rw [upsert_agency_eq_of_any _ s n' r' (any_slug_after_upsert_agency db s n r)]
  rfl

theorem upsert_agency_id_isSome (db : Db) (s n r : String) :
    (upsert_agency db s n r).2.isSome = true := by
  exact isSome_map_of_isSome _ _
    (find?_isSome_of_any _ _ (any_slug_after_upsert_agency db s n r))

theorem any_slug_after_upsert_office (db : Db) (s n : String) (aid : Nat) (r : String) :
    (upsert_office db s n aid r).1.offices.any (fun row => row.slug == s) = true := by
  unfold upsert_office
  by_cases h : db.offices.any (fun row => row.slug == s) = true
  · simp [h]
  · simp only [Bool.not_eq_true] at h
    simp [h, List.any_append]

theorem upsert_office_eq_of_any (db : Db) (s n : String) (aid : Nat) (r : String)
    (h : db.offices.any (fun row => row.slug == s) = true) :
    upsert_office db s n aid r =
      (db, (db.offices.find? (fun row => row.slug == s)).map (fun row => row.id)) := by
  simp [upsert_office, h]

theorem upsert_office_idem (db : Db) (s n : String) (aid : Nat) (r n' : String)
    (aid' : Nat) (r' : String) :
    upsert_office (upsert_office db s n aid r).1 s n' aid' r' = upsert_office db s n aid r := by
  rw [upsert_office_eq_of_any _ s n' aid' r' (any_slug_after_upsert_office db s n aid r)]
  rfl

theorem upsert_office_id_isSome (db : Db) (s n : String) (aid : Nat) (r : String) :
    (upsert_office db s n aid r).2.isSome = true := by
  exact isSome_map_of_isSome _ _
    (find?_isSome_of_any _ _ (any_slug_after_upsert_office db s n aid r))

theorem any_url_after_upsert_room (db : Db) (u lb lv : String) (aid oid : Option Nat) :
    (upsert_reading_room db u lb lv aid oid).1.reading_rooms.any
      (fun row => row.url == u) = true := by
  unfold upsert_reading_room
  by_cases h : db.reading_rooms.any (fun row => row.url == u) = true
  · simp [h]
  · simp only [Bool.not_eq_true] at h
    simp [h, List.any_append]

theorem upsert_room_eq_of_any (db : Db) (u lb lv : String) (aid oid : Option Nat)
    (h : db.reading_rooms.any (fun row => row.url == u) = true) :
    upsert_reading_room db u lb lv aid oid =
      (db, (db.reading_rooms.find? (fun row => row.url == u)).map (fun row => row.id)) := by
  simp [upsert_reading_room, h]

theorem upsert_room_idem (db : Db) (u lb lv : String) (aid oid : Option Nat)
    (lb' lv' : String) (aid' oid' : Option Nat) :
    upsert_reading_room (upsert_reading_room db u lb lv aid oid).1 u lb' lv' aid' oid' =
      upsert_reading_room db u lb lv aid oid := by
  rw [upsert_room_eq_of_any _ u lb' lv' aid' oid' (any_url_after_upsert_room db u lb lv aid oid)]
  rfl

theorem upsert_room_id_isSome (db : Db) (u lb lv : String) (aid oid : Option Nat) :
    (upsert_reading_room db u lb lv aid oid).2.isSome = true := by
  exact isSome_map_of_isSome _ _
    (find?_isSome_of_any _ _ (any_url_after_upsert_room db u lb lv aid oid))

/-! ## Replaying a reconciliation pass (for claim C2)

A reconciliation pass is, as far as the catalog is concerned, a sequence
of upsert operations; replaying the same sequence a second time must be a
no-op. -/

/-- One catalog write of the reconciliation pass (`refresh_metadata`). -/
inductive ReconcileOp where
  | agency (slug name raw_json : String)
  | office (slug name : String) (agency_id : Nat) (raw_json : String)
  | room (url label level : String) (agency_id office_id : Option Nat)

def applyOp (db : Db) : ReconcileOp → Db
  | .agency slug name raw => (upsert_agency db slug name raw).1
  | .office slug name aid raw => (upsert_office db slug name aid raw).1
  | .room url label level aid oid => (upsert_reading_room db url label level aid oid).1

def replay (ops : List ReconcileOp) (db : Db) : Db := ops.foldl applyOp db

/-- Whether an operation's natural key is already present in the catalog. -/
def opKeyDone (db : Db) : ReconcileOp → Bool
  | .agency slug _ _ => db.agencies.any (fun row => row.slug == slug)
  | .office slug _ _ _ => db.offices.any (fun row => row.slug == slug)
  | .room url _ _ _ _ => db.reading_rooms.any (fun row => row.url == url)

theorem opKeyDone_applyOp_self (db : Db) (op : ReconcileOp) :
    opKeyDone (applyOp db op) op = true := by
  cases op with
  | agency s n r => exact any_slug_after_upsert_agency db s n r
  | office s n aid r => exact any_slug_after_upsert_office db s n aid r
  | room u lb lv aid oid => exact any_url_after_upsert_room db u lb lv aid oid

theorem applyOp_of_keyDone (db : Db) (op : ReconcileOp)
    (h : opKeyDone db op = true) : applyOp db op = db := by
  cases op with
  | agency s n r =>
    have := upsert_agency_eq_of_any db s n r h
    simp [applyOp, this]
  | office s n aid r =>
    have := upsert_office_eq_of_any db s n aid r h
    simp [applyOp, this]
  | room u lb lv aid oid =>
    have := upsert_room_eq_of_any db u lb lv aid oid h
    simp [applyOp, this]

theorem any_append_true {α : Type} (l l' : List α) (p : α → Bool)
    (h : l.any p = true) : (l ++ l').any p = true := by
  simp [List.any_append, h]

theorem upsert_agency_offices (db : Db) (s n r : String) :
    (upsert_agency db s n r).1.offices = db.offices := by
  simp only [upsert_agency]
  split <;> rfl

theorem upsert_agency_reading_rooms (db : Db) (s n r : String) :
    (upsert_agency db s n r).1.reading_rooms = db.reading_rooms := by
  simp only [upsert_agency]
  split <;> rfl

theorem upsert_agency_documents (db : Db) (s n r : String) :
    (upsert_agency db s n r).1.documents = db.documents := by
  simp only [upsert_agency]
  split <;> rfl

theorem upsert_office_agencies (db : Db) (s n : String) (aid : Nat) (r : String) :
    (upsert_office db s n aid r).1.agencies = db.agencies := by
  simp only [upsert_office]
  split <;> rfl

theorem upsert_office_reading_rooms (db : Db) (s n : String) (aid : Nat) (r : String) :
    (upsert_office db s n aid r).1.reading_rooms = db.reading_rooms := by
  simp only [upsert_office]
  split <;> rfl

theorem upsert_office_documents (db : Db) (s n : String) (aid : Nat) (r : String) :
    (upsert_office db s n aid r).1.documents = db.documents := by
  simp only [upsert_office]
  split <;> rfl

theorem upsert_room_agencies (db : Db) (u lb lv : String) (aid oid : Option Nat) :
    (upsert_reading_room db u lb lv aid oid).1.agencies = db.agencies := by
  simp only [upsert_reading_room]
  split <;> rfl

theorem upsert_room_offices (db : Db) (u lb lv : String) (aid oid : Option Nat) :
    (upsert_reading_room db u lb lv aid oid).1.offices = db.offices := by
  simp only [upsert_reading_room]
  split <;> rfl

theorem upsert_room_documents (db : Db) (u lb lv : String) (aid oid : Option Nat) :
    (upsert_reading_room db u lb lv aid oid).1.documents = db.documents := by
  simp only [upsert_reading_room]
  split <;> rfl

theorem upsert_agency_agencies_any_mono (db : Db) (s n r : String) (p : AgencyRow → Bool)
    (h : db.agencies.any p = true) : (upsert_agency db s n r).1.agencies.any p = true := by
  simp only [upsert_agency]
  split
  · exact h
  · exact any_append_true _ _ _ h

theorem upsert_office_offices_any_mono (db : Db) (s n : String) (aid : Nat) (r : String)
    (p : OfficeRow → Bool) (h : db.offices.any p = true) :
    (upsert_office db s n aid r).1.offices.any p = true := by
  simp only [upsert_office]
  split
  · exact h
  · exact any_append_true _ _ _ h

theorem upsert_room_rooms_any_mono (db : Db) (u lb lv : String) (aid oid : Option Nat)
    (p : ReadingRoomRow → Bool) (h : db.reading_rooms.any p = true) :
    (upsert_reading_room db u lb lv aid oid).1.reading_rooms.any p = true := by
  simp only [upsert_reading_room]
  split
  · exact h
  · exact any_append_true _ _ _ h

theorem opKeyDone_mono (db : Db) (op op' : ReconcileOp)
    (h : opKeyDone db op = true) : opKeyDone (applyOp db op') op = true := by
  cases op' with
  | agency s n r =>
    cases op with
    | agency s₀ n₀ r₀ => exact upsert_agency_agencies_any_mono db s n r _ h
    | office s₀ n₀ a₀ r₀ =>
      show (upsert_agency db s n r).1.offices.any _ = true
      rw [upsert_agency_offices]
      exact h
    | room u₀ lb₀ lv₀ a₀ o₀ =>
      show (upsert_agency db s n r).1.reading_rooms.any _ = true
      rw [upsert_agency_reading_rooms]
      exact h
  | office s n aid r =>
    cases op with
    | agency s₀ n₀ r₀ =>
      show (upsert_office db s n aid r).1.agencies.any _ = true
      rw [upsert_office_agencies]
      exact h
    | office s₀ n₀ a₀ r₀ => exact upsert_office_offices_any_mono db s n aid r _ h
    | room u₀ lb₀ lv₀ a₀ o₀ =>
      show (upsert_office db s n aid r).1.reading_rooms.any _ = true
      rw [upsert_office_reading_rooms]
      exact h
  | room u lb lv aid oid =>
    cases op with
    | agency s₀ n₀ r₀ =>
      show (upsert_reading_room db u lb lv aid oid).1.agencies.any _ = true
      rw [upsert_room_agencies]
      exact h
    | office s₀ n₀ a₀ r₀ =>
      show (upsert_reading_room db u lb lv aid oid).1.offices.any _ = true
      rw [upsert_room_offices]
      exact h
    | room u₀ lb₀ lv₀ a₀ o₀ => exact upsert_room_rooms_any_mono db u lb lv aid oid _ h

theorem opKeyDone_replay_mono (ops : List ReconcileOp) (db : Db) (op : ReconcileOp)
    (h : opKeyDone db op = true) : opKeyDone (replay ops db) op = true := by
  induction ops generalizing db with
  | nil => exact h
  | cons o os ih => exact ih (applyOp db o) (opKeyDone_mono db op o h)

theorem opKeyDone_all_after_replay (ops : List ReconcileOp) (db : Db) :
    ∀ op ∈ ops, opKeyDone (replay ops db) op = true := by
  induction ops generalizing db with
  | nil => intro op h; cases h
  | cons o os ih =>
    intro op hmem
    rcases List.mem_cons.1 hmem with h | h
    · subst h
      exact opKeyDone_replay_mono os (applyOp db op) op (opKeyDone_applyOp_self db op)
    · exact ih (applyOp db o) op h

theorem replay_id_of_keyDone (ops : List ReconcileOp) (db : Db)
    (h : ∀ op ∈ ops, opKeyDone db op = true) : replay ops db = db := by
  induction ops with
  | nil => rfl
  | cons o os ih =>
    have h1 : applyOp db o = db := applyOp_of_keyDone db o (h o (List.mem_cons_self o os))
    show replay os (applyOp db o) = db
    rw [h1]
    exact ih (fun op hm => h op (List.mem_cons_of_mem o hm))

/-- Replaying an identical snapshot a second time changes nothing. -/
theorem replay_replay (ops : List ReconcileOp) (db : Db) :
    replay ops (replay ops db) = replay ops db :=
  replay_id_of_keyDone ops (replay ops db) (opKeyDone_all_after_replay ops db)

/-! ## Lemmas about the crawl (for claims C4, C6, C8, C9) -/

theorem any_map_pred {α : Type} (l : List α) (f : α → α) (p : α → Bool)
    (h : ∀ x, p (f x) = p x) : (l.map f).any p = l.any p := by
  induction l with
  | nil => rfl
  | cons x xs ih => simp [List.any_cons, h, ih]

theorem find?_map_pred {α : Type} (l : List α) (f : α → α) (p : α → Bool)
    (h : ∀ x, p (f x) = p x) : (l.map f).find? p = (l.find? p).map f := by
  induction l with
  | nil => rfl
  | cons x xs ih =>
    by_cases hx : p x = true
    · rw [List.map_cons, List.find?_cons_of_pos _ (by rw [h]; exact hx),
        List.find?_cons_of_pos _ hx, Option.map_some']
    · have hx' : ¬p (f x) = true := by rw [h]; exact hx
      rw [List.map_cons, List.find?_cons_of_neg _ hx', List.find?_cons_of_neg _ hx]
      exact ih

/-- `update_download_metadata` touches no URL, so `document_exists` is
unchanged by it. -/
theorem document_exists_update_download (db : Db) (i : Nat) (lp ts u : String) :
    document_exists (update_download_metadata db i lp ts) u = document_exists db u := by
  unfold document_exists update_download_metadata
  exact any_map_pred _ _ _ (fun d => by by_cases hid : (d.id == i) = true <;> simp [hid])

theorem update_download_reading_rooms (db : Db) (i : Nat) (lp ts : String) :
    (update_download_metadata db i lp ts).reading_rooms = db.reading_rooms := rfl

theorem update_room_crawled_documents (db : Db) (i : Nat) (ts : String) :
    (update_reading_room_crawled db i ts).documents = db.documents := rfl

/-- `insert_document` on a fresh URL: the appended row (with NULL
`local_path`/`downloaded_at`/`description`) and the returned id. -/
theorem insert_document_spec (db : Db) (url t ft fn : String) (a o rr : Option Nat)
    (da : String) (pd : Option String) (h : document_exists db url = false) :
    insert_document db url t ft fn a o rr da pd =
      some ({ db with
              documents := db.documents ++
                [⟨db.next_document_id, url, none, fn, ft, t, none, a, o, rr, pd, da, none⟩],
              next_document_id := db.next_document_id + 1 },
            db.next_document_id) := by
  have h' : db.documents.any (fun d => d.url == url) = false := h
  simp [insert_document, h']

/-- `insert_document` on a URL already in the table raises. -/
theorem insert_document_dup (db : Db) (url t ft fn : String) (a o rr : Option Nat)
    (da : String) (pd : Option String) (h : document_exists db url = true) :
    insert_document db url t ft fn a o rr da pd = none := by
  have h' : db.documents.any (fun d => d.url == url) = true := h
  simp [insert_document, h']

theorem document_exists_append_self (db : Db) (row : DocumentRow) (n : Nat) :
    document_exists { db with documents := db.documents ++ [row], next_document_id := n }
      row.url = true := by
  unfold document_exists
  simp [List.any_append]

theorem document_exists_append_mono (db : Db) (row : DocumentRow) (n : Nat) (u : String)
    (h : document_exists db u = true) :
    document_exists { db with documents := db.documents ++ [row], next_document_id := n }
      u = true := by
  unfold document_exists at h ⊢
  exact any_append_true _ _ _ h

/-- Master invariant of the candidate loop: it never touches the
`reading_rooms` table, it never raises (the `document_exists` guard makes
every `insert_document` succeed), and any URL present in `documents` stays
present. -/
theorem crawlLoop_master (env : CrawlEnv) (rr : ReadingRoomRow) (rrid : Nat) (dry : Bool)
    (md : Option Nat) (links : List Link) (st : LoopSt) :
    (crawlLoop env rr rrid dry md links st).db.reading_rooms = st.db.reading_rooms ∧
    (crawlLoop env rr rrid dry md links st).raised = st.raised ∧
    (∀ u, document_exists st.db u = true →
      document_exists (crawlLoop env rr rrid dry md links st).db u = true) := by
  induction links generalizing st with
  | nil => exact ⟨rfl, rfl, fun u h => h⟩
  | cons l ls ih =>
    by_cases hex : document_exists st.db l.url = true
    · have hstep : crawlLoop env rr rrid dry md (l :: ls) st =
          crawlLoop env rr rrid dry md ls st := by
        simp only [crawlLoop]
        rw [if_pos hex]
      rw [hstep]
      exact ih st
    · have hex' : document_exists st.db l.url = false := by
        simpa using hex
      by_cases hcap : (dry && capReached md st.downloaded) = true
      · have hstep : crawlLoop env rr rrid dry md (l :: ls) st = st := by
          simp only [crawlLoop]
          rw [if_neg hex, if_pos hcap]
        rw [hstep]
        exact ⟨rfl, rfl, fun u h => h⟩
      · by_cases hdry : dry = true
        · have hstep : crawlLoop env rr rrid dry md (l :: ls) st =
              crawlLoop env rr rrid dry md ls
                { st with
                  db := { st.db with
                          documents := st.db.documents ++
                            [⟨st.db.next_document_id, l.url, none,
                              (if finalSegment (urlPath l.url) == "" then "document"
                               else finalSegment (urlPath l.url)),
                              extOfPath (urlPath l.url),
                              (if l.title == "" then l.url else l.title), none,
                              rr.agency_id, rr.office_id, some rrid, none,
                              env.clock st.tick, none⟩],
                          next_document_id := st.db.next_document_id + 1 },
                  downloaded := st.downloaded + 1,
                  tick := st.tick + 1 } := by
            simp only [crawlLoop]
            rw [if_neg hex, if_neg hcap,
              insert_document_spec st.db l.url _ _ _ _ _ _ _ _ hex', hdry]
            rfl
          rw [hstep]
          obtain ⟨ha, hb, hc⟩ := ih _
          refine ⟨ha, hb, fun u h => hc u ?_⟩
          exact document_exists_append_mono _ _ _ _ h
        · have hdry' : dry = false := by simpa using hdry
          cases hdl : env.download l.url with
          | some lp =>
            have hstep : crawlLoop env rr rrid dry md (l :: ls) st =
                crawlLoop env rr rrid dry md ls
                  { st with
                    db := update_download_metadata
                      { st.db with
                        documents := st.db.documents ++
                          [⟨st.db.next_document_id, l.url, none,
                            (if finalSegment (urlPath l.url) == "" then "document"
                             else finalSegment (urlPath l.url)),
                            extOfPath (urlPath l.url),
                            (if l.title == "" then l.url else l.title), none,
                            rr.agency_id, rr.office_id, some rrid, none,
                            env.clock st.tick, none⟩],
                        next_document_id := st.db.next_document_id + 1 }
                      st.db.next_document_id lp (env.clock (st.tick + 1)),
                    downloaded := st.downloaded + 1,
                    tick := st.tick + 2,
                    attempts := st.attempts ++ [l.url] } := by
              simp only [crawlLoop]
              rw [if_neg hex, if_neg hcap,
                insert_document_spec st.db l.url _ _ _ _ _ _ _ _ hex', hdry', hdl]
              rfl
            rw [hstep]
            obtain ⟨ha, hb, hc⟩ := ih _
            refine ⟨by rw [ha]; rfl, hb, fun u h => hc u ?_⟩
            rw [document_exists_update_download]
            exact document_exists_append_mono _ _ _ _ h
          | none =>
            have hstep : crawlLoop env rr rrid dry md (l :: ls) st =
                crawlLoop env rr rrid dry md ls
                  { st with
                    db := { st.db with
                            documents := st.db.documents ++
                              [⟨st.db.next_document_id, l.url, none,
                                (if finalSegment (urlPath l.url) == "" then "document"
                                 else finalSegment (urlPath l.url)),
                                extOfPath (urlPath l.url),
                                (if l.title == "" then l.url else l.title), none,
                                rr.agency_id, rr.office_id, some rrid, none,
                                env.clock st.tick, none⟩],
                            next_document_id := st.db.next_document_id + 1 },
                    downloaded := st.downloaded + 1,
                    tick := st.tick + 1,
                    attempts := st.attempts ++ [l.url] } := by
              simp only [crawlLoop]
              rw [if_neg hex, if_neg hcap,
                insert_document_spec st.db l.url _ _ _ _ _ _ _ _ hex', hdry', hdl]
              rfl
            rw [hstep]
            obtain ⟨ha, hb, hc⟩ := ih _
            refine ⟨ha, hb, fun u h => hc u ?_⟩
            exact document_exists_append_mono _ _ _ _ h

/-- The Document row the loop inserts for a fresh candidate. -/
def insertedRow (env : CrawlEnv) (rr : ReadingRoomRow) (rrid : Nat) (l : Link)
    (st : LoopSt) : DocumentRow :=
  ⟨st.db.next_document_id, l.url, none,
   (if finalSegment (urlPath l.url) == "" then "document" else finalSegment (urlPath l.url)),
   extOfPath (urlPath l.url),
   (if l.title == "" then l.url else l.title), none,
   rr.agency_id, rr.office_id, some rrid, none, env.clock st.tick, none⟩

def insertedDb (env : CrawlEnv) (rr : ReadingRoomRow) (rrid : Nat) (l : Link)
    (st : LoopSt) : Db :=
  { st.db with
    documents := st.db.documents ++ [insertedRow env rr rrid l st],
    next_document_id := st.db.next_document_id + 1 }

theorem crawlLoop_step_skip (env : CrawlEnv) (rr : ReadingRoomRow) (rrid : Nat)
    (dry : Bool) (md : Option Nat) (l : Link) (ls : List Link) (st : LoopSt)
    (hex : document_exists st.db l.url = true) :
    crawlLoop env rr rrid dry md (l :: ls) st = crawlLoop env rr rrid dry md ls st := by
  simp only [crawlLoop]
  rw [if_pos hex]

theorem crawlLoop_step_new_dl (env : CrawlEnv) (rr : ReadingRoomRow) (rrid : Nat)
    (md : Option Nat) (l : Link) (ls : List Link) (st : LoopSt) (lp : String)
    (hex : document_exists st.db l.url = false) (hdl : env.download l.url = some lp) :
    crawlLoop env rr rrid false md (l :: ls) st =
      crawlLoop env rr rrid false md ls
        { st with
          db := update_download_metadata (insertedDb env rr rrid l st)
            st.db.next_document_id lp (env.clock (st.tick + 1)),
          downloaded := st.downloaded + 1,
          tick := st.tick + 2,
          attempts := st.attempts ++ [l.url] } := by
  simp only [crawlLoop]
  rw [if_neg (by simp [hex]), insert_document_spec st.db l.url _ _ _ _ _ _ _ _ hex, hdl]
  rfl

theorem crawlLoop_step_new_nodl (env : CrawlEnv) (rr : ReadingRoomRow) (rrid : Nat)
    (md : Option Nat) (l : Link) (ls : List Link) (st : LoopSt)
    (hex : document_exists st.db l.url = false) (hdl : env.download l.url = none) :
    crawlLoop env rr rrid false md (l :: ls) st =
      crawlLoop env rr rrid false md ls
        { st with
          db := insertedDb env rr rrid l st,
          downloaded := st.downloaded + 1,
          tick := st.tick + 1,
          attempts := st.attempts ++ [l.url] } := by
  simp only [crawlLoop]
  rw [if_neg (by simp [hex]), insert_document_spec st.db l.url _ _ _ _ _ _ _ _ hex, hdl]
  rfl

/-- In execute mode every candidate URL ends up in the documents table. -/
theorem crawlLoop_covers (env : CrawlEnv) (rr : ReadingRoomRow) (rrid : Nat)
    (md : Option Nat) (links : List Link) (st : LoopSt) :
    ∀ link ∈ links,
      document_exists (crawlLoop env rr rrid false md links st).db link.url = true := by
  induction links generalizing st with
  | nil => intro link h; cases h
  | cons l ls ih =>
    intro link hmem
    by_cases hex : document_exists st.db l.url = true
    · rw [crawlLoop_step_skip env rr rrid false md l ls st hex]
      rcases List.mem_cons.1 hmem with h | h
      · subst h
        exact (crawlLoop_master env rr rrid false md ls st).2.2 _ hex
      · exact ih st link h
    · have hex' : document_exists st.db l.url = false := by simpa using hex
      have hins : document_exists (insertedDb env rr rrid l st) l.url = true := by
        unfold insertedDb
        exact document_exists_append_self st.db (insertedRow env rr rrid l st) _
      cases hdl : env.download l.url with
      | some lp =>
        rw [crawlLoop_step_new_dl env rr rrid md l ls st lp hex' hdl]
        rcases List.mem_cons.1 hmem with h | h
        · subst h
          refine (crawlLoop_master env rr rrid false md ls _).2.2 _ ?_
          show document_exists (update_download_metadata _ _ _ _) link.url = true
          rw [document_exists_update_download]
          exact hins
        · exact ih _ link h
      | none =>
        rw [crawlLoop_step_new_nodl env rr rrid md l ls st hex' hdl]
        rcases List.mem_cons.1 hmem with h | h
        · subst h
          exact (crawlLoop_master env rr rrid false md ls _).2.2 _ hins
        · exact ih _ link h

/-- When every candidate URL is already catalogued the loop is a no-op. -/
theorem crawlLoop_skip_all (env : CrawlEnv) (rr : ReadingRoomRow) (rrid : Nat)
    (dry : Bool) (md : Option Nat) (links : List Link) (st : LoopSt)
    (h : ∀ link ∈ links, document_exists st.db link.url = true) :
    crawlLoop env rr rrid dry md links st = st := by
  induction links with
  | nil => rfl
  | cons l ls ih =>
    rw [crawlLoop_step_skip env rr rrid dry md l ls st (h l (List.mem_cons_self l ls))]
    exact ih (fun link hm => h link (List.mem_cons_of_mem l hm))

/-! ## Unfolding `crawl_reading_room` by case -/

theorem crawl_room_not_found (env : CrawlEnv) (db : Db) (rrid : Nat) (dry : Bool)
    (md : Option Nat) (h : db.reading_rooms.find? (fun r => r.id == rrid) = none) :
    crawl_reading_room env db rrid dry md = ⟨db, [], false⟩ := by
  simp [crawl_reading_room, h]

theorem crawl_room_fetch_fail (env : CrawlEnv) (db : Db) (rrid : Nat) (dry : Bool)
    (md : Option Nat) (rr : ReadingRoomRow)
    (h : db.reading_rooms.find? (fun r => r.id == rrid) = some rr)
    (hf : env.fetchPage rr.url = none) :
    crawl_reading_room env db rrid dry md = ⟨db, [], false⟩ := by
  simp [crawl_reading_room, h, hf]

theorem crawl_room_fetch_ok (env : CrawlEnv) (db : Db) (rrid : Nat) (dry : Bool)
    (md : Option Nat) (rr : ReadingRoomRow) (anchors : List Anchor)
    (h : db.reading_rooms.find? (fun r => r.id == rrid) = some rr)
    (hf : env.fetchPage rr.url = some anchors) :
    crawl_reading_room env db rrid dry md =
      ⟨update_reading_room_crawled
          (crawlLoop env rr rrid dry md (extract_document_links anchors rr.url)
            ⟨db, 0, 0, [], false⟩).db
          rrid
          (env.clock (crawlLoop env rr rrid dry md (extract_document_links anchors rr.url)
            ⟨db, 0, 0, [], false⟩).tick),
        (crawlLoop env rr rrid dry md (extract_document_links anchors rr.url)
          ⟨db, 0, 0, [], false⟩).attempts,
        false⟩ := by
  have hraised : (crawlLoop env rr rrid dry md (extract_document_links anchors rr.url)
      ⟨db, 0, 0, [], false⟩).raised = false :=
    (crawlLoop_master env rr rrid dry md (extract_document_links anchors rr.url)
      ⟨db, 0, 0, [], false⟩).2.1
  simp [crawl_reading_room, h, hf, hraised]

theorem find?_some_pred {α : Type} {p : α → Bool} {l : List α} {a : α}
    (h : l.find? p = some a) : p a = true := by
  induction l with
  | nil => cases h
  | cons x xs ih =>
    by_cases hx : p x = true
    · rw [List.find?_cons_of_pos _ hx] at h
      have hxa : x = a := by simpa using h
      exact hxa ▸ hx
    · rw [List.find?_cons_of_neg _ hx] at h
      exact ih h

theorem find_room_after_update (db : Db) (i : Nat) (ts : String) (rr : ReadingRoomRow)
    (h : db.reading_rooms.find? (fun r => r.id == i) = some rr) :
    (update_reading_room_crawled db i ts).reading_rooms.find? (fun r => r.id == i) =
      some { rr with last_crawled_at := some ts } := by
  have hpred : ∀ x : ReadingRoomRow,
      ((if x.id == i then { x with last_crawled_at := some ts } else x).id == i) =
        (x.id == i) := by
    intro x
    by_cases hid : (x.id == i) = true <;> simp [hid]
  show (db.reading_rooms.map _).find? _ = _
  rw [find?_map_pred _ _ _ hpred, h, Option.map_some']
  have hp := find?_some_pred h
  rw [if_pos (show (rr.id == i) = true from hp)]

/-! ## Concrete inputs used by the claims -/

/-- An environment serving a single agency page: two data records, one
included resource, no `next` link. -/
def c1env : String → Option (Page Nat) := fun u =>
  if u = "https://api.example.gov/api/agency" then some ⟨[7, 8], [9], none⟩ else none

/-- Pages 1 and 2 full (100 records), page 3 short (1 record < the
requested page size of 100) **with** a `next` link, page 4 empty. -/
def c5env_short : String → Option (Page Nat) := fun u =>
  if u = "https://api.example.gov/api/agency" then
    some ⟨List.replicate 100 1, [], some (.nstr "https://api.example.gov/api/agency?page=2")⟩
  else if u = "https://api.example.gov/api/agency?page=2" then
    some ⟨List.replicate 100 2, [], some (.nstr "https://api.example.gov/api/agency?page=3")⟩
  else if u = "https://api.example.gov/api/agency?page=3" then
    some ⟨[3], [], some (.nstr "https://api.example.gov/api/agency?page=4")⟩
  else if u = "https://api.example.gov/api/agency?page=4" then
    some ⟨[], [], none⟩
  else none

/-- First page empty but carrying a `next` link. -/
def c5env_empty : String → Option (Page Nat) := fun u =>
  if u = "https://api.example.gov/api/agency" then
    some ⟨[], [], some (.nstr "https://api.example.gov/api/agency?page=2")⟩
  else if u = "https://api.example.gov/api/agency?page=2" then
    some ⟨[2], [], none⟩
  else none

/-- Single page, no `next` reference. -/
def c5env_nonext : String → Option (Page Nat) := fun u =>
  if u = "https://api.example.gov/api/agency" then some ⟨[1], [], none⟩ else none

/-- Second page's `next` link points back to the first URL (a cycle). -/
def c5env_cycle : String → Option (Page Nat) := fun u =>
  if u = "https://api.example.gov/api/agency" then
    some ⟨[1], [], some (.nstr "https://api.example.gov/api/agency?page=2")⟩
  else if u = "https://api.example.gov/api/agency?page=2" then
    some ⟨[2], [], some (.nstr "https://api.example.gov/api/agency")⟩
  else none

def roomRow : ReadingRoomRow :=
  ⟨1, "https://agency.example.gov/foia/", "Room", "office", some 1, some 1, none⟩

/-- A catalog holding one reading room and no documents. -/
def oneRoomDb : Db := { emptyDb with reading_rooms := [roomRow], next_room_id := 2 }

/-- Five fresh candidate links, all with an allowed extension. -/
def fiveAnchors : List Anchor :=
  [⟨"a.pdf", "A"⟩, ⟨"b.pdf", "B"⟩, ⟨"c.pdf", "C"⟩, ⟨"d.pdf", "D"⟩, ⟨"e.pdf", "E"⟩]

/-- Crawl environment: every room page serves `fiveAnchors`; downloads
fail (irrelevant to row counting); the clock counts. -/
def crawlEnvOk : CrawlEnv := ⟨fun _ => some fiveAnchors, fun _ => none, fun n => toString n⟩

/-- Crawl environment in which fetching any room page raises. -/
def envFail : CrawlEnv := ⟨fun _ => none, fun _ => none, fun _ => "t"⟩

def c7anchors : List Anchor :=
  [⟨"a.pdf", "A"⟩, ⟨"b.exe", "B"⟩, ⟨"c.DOCX", "C"⟩, ⟨"d", "D"⟩, ⟨"e.pdf?x=1", "E"⟩]

/-! ## The claims -/

/-- **C1** (code bug).  `_fetch_paginated`'s body ends without a `return`
statement.  On a successful single-page fetch the loop does gather the
page's `data` and `included` (first conjunct), yet the function returns
Python `None` (second conjunct), so `fetch_agencies`' tuple unpacking
`agencies, _ = _fetch_paginated(...)` raises `TypeError` (third conjunct);
in fact no environment whatsoever can make it return the documented pair
(fourth conjunct). -/
theorem C1_fetch_paginated_returns_none :
    (fetch_paginated_run Nat c1env 10 "https://api.example.gov/api" "agency" =
      .done [7, 8] [9] ["https://api.example.gov/api/agency"]) ∧
    (fetch_paginated Nat c1env 10 "https://api.example.gov/api" "agency" = .ret none) ∧
    (fetch_agencies Nat c1env 10 "https://api.example.gov/api" = none) ∧
    (∀ (α : Type) (env : String → Option (Page α)) (fuel : Nat) (base_url path : String),
      fetch_paginated α env fuel base_url path = .ret none ∨
      fetch_paginated α env fuel base_url path = .raised ∨
      fetch_paginated α env fuel base_url path = .diverged) := by
  refine ⟨by decide, by decide, by decide, ?_⟩
  intro α env fuel base_url path
  unfold fetch_paginated
  cases fetch_paginated_run α env fuel base_url path <;> simp

/-- **C2** (confirmed).  Each upsert always fetches an identity (no
`fetchone()[0]` error), a second call with the same natural key returns the
identical database and identity whatever name/payload it carries, and
replaying a whole reconciliation pass a second time changes no table. -/
theorem C2_upserts_idempotent :
    (∀ (db : Db) (s n r : String), (upsert_agency db s n r).2.isSome = true) ∧
    (∀ (db : Db) (s n r n' r' : String),
      upsert_agency (upsert_agency db s n r).1 s n' r' = upsert_agency db s n r) ∧
    (∀ (db : Db) (s n : String) (aid : Nat) (r : String),
      (upsert_office db s n aid r).2.isSome = true) ∧
    (∀ (db : Db) (s n : String) (aid : Nat) (r n' : String) (aid' : Nat) (r' : String),
      upsert_office (upsert_office db s n aid r).1 s n' aid' r' = upsert_office db s n aid r) ∧
    (∀ (db : Db) (u lb lv : String) (aid oid : Option Nat),
      (upsert_reading_room db u lb lv aid oid).2.isSome = true) ∧
    (∀ (db : Db) (u lb lv : String) (aid oid : Option Nat) (lb' lv' : String)
        (aid' oid' : Option Nat),
      upsert_reading_room (upsert_reading_room db u lb lv aid oid).1 u lb' lv' aid' oid' =
        upsert_reading_room db u lb lv aid oid) ∧
    (∀ (ops : List ReconcileOp) (db : Db), replay ops (replay ops db) = replay ops db) :=
  ⟨upsert_agency_id_isSome, upsert_agency_idem, upsert_office_id_isSome, upsert_office_idem,
   upsert_room_id_isSome, upsert_room_idem, replay_replay⟩

/-- **C3** (counterexample).  Reconciling the same agency slug again with a
new raw payload leaves the stored `raw_json` equal to the **old** payload:
`INSERT OR IGNORE` never updates the row. -/
theorem C3_counterexample_payload_not_overwritten :
    ((upsert_agency (upsert_agency emptyDb "dept-of-x" "Dept" "payload-v1").1
        "dept-of-x" "Dept" "payload-v2").1.agencies.map (fun row => row.raw_json)) =
      ["payload-v1"] ∧
    ("payload-v1" : String) ≠ "payload-v2" := by
  refine ⟨by decide, by decide⟩

/-- **C3** (amended).  A subsequent reconciliation pass does **not**
overwrite the stored raw payload: the agency/office row — identity, slug,
relationships and payload — is left exactly as the first insert created
it, so the stored payload stays the one from the first sighting. -/
theorem C3_amended_payload_preserved :
    (∀ (db : Db) (s n r n' r' : String),
      (upsert_agency (upsert_agency db s n r).1 s n' r').1 = (upsert_agency db s n r).1) ∧
    (∀ (db : Db) (s n : String) (aid : Nat) (r n' : String) (aid' : Nat) (r' : String),
      (upsert_office (upsert_office db s n aid r).1 s n' aid' r').1 =
        (upsert_office db s n aid r).1) ∧
    (∀ (s n r n' r' : String),
      ((upsert_agency (upsert_agency emptyDb s n r).1 s n' r').1.agencies.map
        (fun row => row.raw_json)) = [r]) := by
  refine ⟨fun db s n r n' r' => congrArg Prod.fst (upsert_agency_idem db s n r n' r'),
    fun db s n aid r n' aid' r' => congrArg Prod.fst (upsert_office_idem db s n aid r n' aid' r'),
    ?_⟩
  intro s n r n' r'
  rw [congrArg Prod.fst (upsert_agency_idem emptyDb s n r n' r')]
  simp [upsert_agency, emptyDb]

/-- **C4** (counterexample).  In simulate mode with `cap = 2` and five new
candidates, the first crawl inserts 2 rows and the *second* crawl of the
identical page inserts 2 more — the document count does not stay at the
first crawl's count, contradicting the claim as stated. -/
theorem C4_counterexample_simulate_cap :
    (crawl_reading_room crawlEnvOk oneRoomDb 1 true (some 2)).db.documents.length = 2 ∧
    (crawl_reading_room crawlEnvOk
        (crawl_reading_room crawlEnvOk oneRoomDb 1 true (some 2)).db
        1 true (some 2)).db.documents.length = 4 ∧
    ¬((crawl_reading_room crawlEnvOk
        (crawl_reading_room crawlEnvOk oneRoomDb 1 true (some 2)).db
        1 true (some 2)).db.documents.length =
      (crawl_reading_room crawlEnvOk oneRoomDb 1 true (some 2)).db.documents.length) := by
  refine ⟨by decide, by decide, by decide⟩

/-- **C4** (amended).  In execute mode (where the cap never binds) a second
crawl of the same reading room against an unchanged page inserts no new
Document row and triggers no download attempt: every candidate URL is
already present and is skipped entirely. -/
theorem C4_amended_execute_second_crawl_noop (env : CrawlEnv) (db : Db) (rrid : Nat)
    (md : Option Nat) :
    (crawl_reading_room env (crawl_reading_room env db rrid false md).db
        rrid false md).db.documents.length =
      (crawl_reading_room env db rrid false md).db.documents.length ∧
    (crawl_reading_room env (crawl_reading_room env db rrid false md).db
        rrid false md).attempts = [] := by
  cases h1 : db.reading_rooms.find? (fun r => r.id == rrid) with
  | none =>
    have e1 := crawl_room_not_found env db rrid false md h1
    rw [e1]
    constructor
    · show (crawl_reading_room env db rrid false md).db.documents.length = db.documents.length
      rw [e1]
    · show (crawl_reading_room env db rrid false md).attempts = []
      rw [e1]
  | some rr =>
    cases h2 : env.fetchPage rr.url with
    | none =>
      have e1 := crawl_room_fetch_fail env db rrid false md rr h1 h2
      rw [e1]
      constructor
      · show (crawl_reading_room env db rrid false md).db.documents.length = db.documents.length
        rw [e1]
      · show (crawl_reading_room env db rrid false md).attempts = []
        rw [e1]
    | some anchors =>
      have e1 := crawl_room_fetch_ok env db rrid false md rr anchors h1 h2
      set st1 := crawlLoop env rr rrid false md (extract_document_links anchors rr.url)
        ⟨db, 0, 0, [], false⟩ with hst1
      set ts1 := env.clock st1.tick with hts1
      have hrooms1 : st1.db.reading_rooms = db.reading_rooms :=
        (crawlLoop_master env rr rrid false md (extract_document_links anchors rr.url)
          ⟨db, 0, 0, [], false⟩).1
      have hfind2 : (update_reading_room_crawled st1.db rrid ts1).reading_rooms.find?
          (fun r => r.id == rrid) = some { rr with last_crawled_at := some ts1 } := by
        apply find_room_after_update
        rw [hrooms1]
        exact h1
      have hfetch2 :
          env.fetchPage ({ rr with last_crawled_at := some ts1 } : ReadingRoomRow).url =
            some anchors := h2
      have e2 := crawl_room_fetch_ok env (update_reading_room_crawled st1.db rrid ts1) rrid
        false md { rr with last_crawled_at := some ts1 } anchors hfind2 hfetch2
      have hcov := crawlLoop_covers env rr rrid md (extract_document_links anchors rr.url)
        ⟨db, 0, 0, [], false⟩
      have hskip : crawlLoop env { rr with last_crawled_at := some ts1 } rrid false md
          (extract_document_links anchors
            ({ rr with last_crawled_at := some ts1 } : ReadingRoomRow).url)
          ⟨update_reading_room_crawled st1.db rrid ts1, 0, 0, [], false⟩ =
          ⟨update_reading_room_crawled st1.db rrid ts1, 0, 0, [], false⟩ := by
        apply crawlLoop_skip_all
        intro link hm
        exact hcov link hm
      rw [e1]
      constructor
      · show (crawl_reading_room env (update_reading_room_crawled st1.db rrid ts1) rrid
            false md).db.documents.length =
          (update_reading_room_crawled st1.db rrid ts1).documents.length
        rw [e2, hskip]
        rfl
      · show (crawl_reading_room env (update_reading_room_crawled st1.db rrid ts1) rrid
            false md).attempts = []
        rw [e2, hskip]

/-- **C5** (counterexample).  A page sequence whose third page is short
(1 record against the requested page size of 100) but still carries a
fresh `next` link drives the loop into a **fourth** request: the code has
no short-page stopping rule. -/
theorem C5_counterexample_short_page_continues :
    [3].length < requestedPageSize ∧
    (fetch_paginated_run Nat c5env_short 10 "https://api.example.gov/api" "agency").requests =
      ["https://api.example.gov/api/agency",
       "https://api.example.gov/api/agency?page=2",
       "https://api.example.gov/api/agency?page=3",
       "https://api.example.gov/api/agency?page=4"] := by
  refine ⟨by decide, by decide⟩

/-- **C5** (amended).  The pagination loop stops when the page's batch is
empty (even with a `next` link present), when no `next` reference exists,
and when the `next` URL was already visited (cycle guard) — but a batch
merely *smaller than the requested page size* does not stop it: the short
third page above is followed by a fourth request. -/
theorem C5_amended_termination_conditions :
    (fetch_paginated_run Nat c5env_empty 10 "https://api.example.gov/api" "agency").requests =
      ["https://api.example.gov/api/agency"] ∧
    (fetch_paginated_run Nat c5env_nonext 10 "https://api.example.gov/api" "agency").requests =
      ["https://api.example.gov/api/agency"] ∧
    (fetch_paginated_run Nat c5env_cycle 10 "https://api.example.gov/api" "agency").requests =
      ["https://api.example.gov/api/agency", "https://api.example.gov/api/agency?page=2"] ∧
    (fetch_paginated_run Nat c5env_short 10 "https://api.example.gov/api" "agency").requests.length
      = 4 := by
  refine ⟨by decide, by decide, by decide, by decide⟩

/-- **C6** (counterexample).  When fetching the room's page fails, the
crawl returns with the catalog untouched: the room's `last_crawled_at`
stays NULL instead of being updated "unconditionally". -/
theorem C6_counterexample_timestamp_skipped_on_fetch_failure :
    crawl_reading_room envFail oneRoomDb 1 false none = ⟨oneRoomDb, [], false⟩ ∧
    oneRoomDb.reading_rooms.map (fun r => r.last_crawled_at) = [none] := by
  refine ⟨by decide, by decide⟩

/-- **C6** (amended).  For a room present in the catalog: if the page fetch
fails the function returns *without* updating the timestamp (the database
is returned unchanged, and since no exception escapes, the crawl of other
rooms proceeds); if the fetch succeeds the room's `last_crawled_at` is set
before returning, in every mode, even when zero new documents are found. -/
theorem C6_amended_timestamp_on_success (env : CrawlEnv) (db : Db) (rrid : Nat)
    (dry : Bool) (md : Option Nat) (rr : ReadingRoomRow)
    (h : db.reading_rooms.find? (fun r => r.id == rrid) = some rr) :
    (env.fetchPage rr.url = none → crawl_reading_room env db rrid dry md = ⟨db, [], false⟩) ∧
    (∀ anchors : List Anchor, env.fetchPage rr.url = some anchors →
      ∃ ts : String,
        (crawl_reading_room env db rrid dry md).db.reading_rooms.find?
          (fun r => r.id == rrid) = some { rr with last_crawled_at := some ts }) := by
  constructor
  · intro hf
    exact crawl_room_fetch_fail env db rrid dry md rr h hf
  · intro anchors hf
    rw [crawl_room_fetch_ok env db rrid dry md rr anchors h hf]
    refine ⟨env.clock (crawlLoop env rr rrid dry md (extract_document_links anchors rr.url)
      ⟨db, 0, 0, [], false⟩).tick, ?_⟩
    show (update_reading_room_crawled _ rrid _).reading_rooms.find? _ = _
    apply find_room_after_update
    rw [(crawlLoop_master env rr rrid dry md (extract_document_links anchors rr.url)
      ⟨db, 0, 0, [], false⟩).1]
    exact h

theorem C6_amended_timestamp_on_success_witness :
    (oneRoomDb.reading_rooms.find? (fun r => r.id == 1) = some roomRow) ∧
    (crawl_reading_room envFail oneRoomDb 1 false none = ⟨oneRoomDb, [], false⟩) ∧
    (∃ ts : String,
      (crawl_reading_room crawlEnvOk oneRoomDb 1 false none).db.reading_rooms.find?
        (fun r => r.id == 1) = some { roomRow with last_crawled_at := some ts }) :=
  ⟨by decide,
   (C6_amended_timestamp_on_success envFail oneRoomDb 1 false none roomRow (by decide)).1 rfl,
   (C6_amended_timestamp_on_success crawlEnvOk oneRoomDb 1 false none roomRow (by decide)).2
     fiveAnchors rfl⟩

/-- **C7** (confirmed).  Candidate extraction retains a link exactly when
the (case-insensitively compared) extension of the final path segment of
its absolute URL — query string and fragment ignored — is in the
allow-list, and on the spec's five-link page it yields exactly
`a.pdf`, `c.DOCX`, `e.pdf?x=1`, the query string preserved in the stored
URL. -/
theorem C7_extension_filter :
    (∀ (anchors : List Anchor) (base_url : String),
      extract_document_links anchors base_url = spec_extract anchors base_url) ∧
    (extract_document_links c7anchors "https://example.gov/rooms/").map Link.url =
      ["https://example.gov/rooms/a.pdf", "https://example.gov/rooms/c.DOCX",
       "https://example.gov/rooms/e.pdf?x=1"] :=
  ⟨extract_eq_spec_extract, by decide⟩

/-- **C8** (confirmed).  With five fresh candidates and `cap = 2`, a
simulate-mode crawl inserts at most 2 Document rows while an execute-mode
crawl of the same input inserts all 5 — the cap binds only in simulate
mode. -/
theorem C8_simulate_cap_binds_only_in_dry_run :
    (crawl_reading_room crawlEnvOk oneRoomDb 1 true (some 2)).db.documents.length ≤ 2 ∧
    (crawl_reading_room crawlEnvOk oneRoomDb 1 false (some 2)).db.documents.length = 5 := by
  refine ⟨by decide, by decide⟩

/-- The shape of a successful `insert_document`. -/
theorem insert_document_documents (db : Db) (url t ft fn : String) (a o rr : Option Nat)
    (da : String) (pd : Option String) (db' : Db) (did : Nat)
    (h : insert_document db url t ft fn a o rr da pd = some (db', did)) :
    db'.documents = db.documents ++
      [⟨did, url, none, fn, ft, t, none, a, o, rr, pd, da, none⟩] := by
  by_cases hex : document_exists db url = true
  · rw [insert_document_dup db url t ft fn a o rr da pd hex] at h
    cases h
  · have hex' : document_exists db url = false := by simpa using hex
    rw [insert_document_spec db url t ft fn a o rr da pd hex'] at h
    simp only [Option.some.injEq, Prod.mk.injEq] at h
    obtain ⟨hdb, hdid⟩ := h
    subst hdb
    subst hdid
    rfl

/-- Both download fields null or both set. -/
def doc_lifecycle_inv (db : Db) : Prop :=
  ∀ d ∈ db.documents, d.local_path.isSome = d.downloaded_at.isSome

/-- **C9** (confirmed).  `insert_document` appends a row with NULL
`local_path`/`downloaded_at` and touches nothing else;
`update_download_metadata` sets both fields together on the matching row
and leaves every other row untouched; both operations preserve the
both-null-or-both-set invariant; a Downloaded row never regresses; and no
other storage operation touches the documents table at all. -/
theorem C9_document_lifecycle :
    (∀ (db : Db) (url t ft fn : String) (a o rr : Option Nat) (da : String)
        (pd : Option String) (db' : Db) (did : Nat),
      insert_document db url t ft fn a o rr da pd = some (db', did) →
        db'.documents = db.documents ++
          [⟨did, url, none, fn, ft, t, none, a, o, rr, pd, da, none⟩]) ∧
    (∀ (db : Db) (did : Nat) (lp ts : String),
      (update_download_metadata db did lp ts).documents =
        db.documents.map (fun d =>
          if d.id == did then
            { d with local_path := some lp, downloaded_at := some ts }
          else d)) ∧
    (∀ (db : Db) (url t ft fn : String) (a o rr : Option Nat) (da : String)
        (pd : Option String) (db' : Db) (did : Nat),
      insert_document db url t ft fn a o rr da pd = some (db', did) →
        doc_lifecycle_inv db → doc_lifecycle_inv db') ∧
    (∀ (db : Db) (did : Nat) (lp ts : String),
      doc_lifecycle_inv db → doc_lifecycle_inv (update_download_metadata db did lp ts)) ∧
    (∀ (db : Db) (did : Nat) (lp ts : String) (d : DocumentRow),
      d ∈ db.documents → d.downloaded_at.isSome = true →
        ∃ d' ∈ (update_download_metadata db did lp ts).documents,
          d'.id = d.id ∧ d'.downloaded_at.isSome = true ∧
          (d.local_path.isSome = true → d'.local_path.isSome = true)) ∧
    (∀ (db : Db) (s n r : String), (upsert_agency db s n r).1.documents = db.documents) ∧
    (∀ (db : Db) (s n : String) (aid : Nat) (r : String),
      (upsert_office db s n aid r).1.documents = db.documents) ∧
    (∀ (db : Db) (u lb lv : String) (aid oid : Option Nat),
      (upsert_reading_room db u lb lv aid oid).1.documents = db.documents) ∧
    (∀ (db : Db) (i : Nat) (ts : String),
      (update_reading_room_crawled db i ts).documents = db.documents) := by
  refine ⟨insert_document_documents, fun db did lp ts => rfl, ?_, ?_, ?_,
    upsert_agency_documents, upsert_office_documents, upsert_room_documents,
    fun db i ts => rfl⟩
  · intro db url t ft fn a o rr da pd db' did h hinv d hd
    rw [insert_document_documents db url t ft fn a o rr da pd db' did h] at hd
    rcases List.mem_append.1 hd with hold | hnew
    · exact hinv d hold
    · have : d = ⟨did, url, none, fn, ft, t, none, a, o, rr, pd, da, none⟩ := by
        simpa using hnew
      subst this
      rfl
  · intro db did lp ts hinv d hd
    obtain ⟨d0, hd0, hfd⟩ := List.mem_map.1 hd
    subst hfd
    by_cases hid : (d0.id == did) = true
    · simp [hid]
    · simp only [Bool.not_eq_true] at hid
      simp [hid]
      exact hinv d0 hd0
  · intro db did lp ts d hd hds
    refine ⟨if d.id == did then { d with local_path := some lp, downloaded_at := some ts }
      else d, List.mem_map_of_mem _ hd, ?_, ?_, ?_⟩
    · by_cases hid : (d.id == did) = true <;> simp [hid]
    · by_cases hid : (d.id == did) = true <;> simp [hid, hds]
    · intro hlp
      by_cases hid : (d.id == did) = true <;> simp [hid, hlp]

def c9row : DocumentRow :=
  ⟨1, "https://x.example.gov/a.pdf", none, "a.pdf", "pdf", "T", none, none, none, none,
   none, "t0", none⟩

def c9db : Db := { emptyDb with documents := [c9row], next_document_id := 2 }

theorem C9_document_lifecycle_witness :
    (insert_document emptyDb "https://x.example.gov/a.pdf" "T" "pdf" "a.pdf" none none none
      "t0" none = some (c9db, 1)) ∧
    c9db.documents = emptyDb.documents ++ [c9row] :=
  ⟨by decide,
   C9_document_lifecycle.1 emptyDb "https://x.example.gov/a.pdf" "T" "pdf" "a.pdf" none none
     none "t0" none c9db 1 (by decide)⟩

/-- **C10** (confirmed).  `list_reading_rooms` treats a limit of 0 exactly
like no limit: the LIMIT clause is applied only for a truthy limit, so
limit 0 returns every reading-room row, ordered by id. -/
theorem C10_limit_zero_unlimited (db : Db) :
    list_reading_rooms db (some 0) = list_reading_rooms db none ∧
    (∀ r : ReadingRoomRow, r ∈ list_reading_rooms db (some 0) ↔ r ∈ db.reading_rooms) ∧
    List.Sorted (fun a b => a.id ≤ b.id) (list_reading_rooms db (some 0)) := by
  refine ⟨rfl, ?_, ?_⟩
  · intro r
    exact (List.perm_insertionSort (fun (a b : ReadingRoomRow) => a.id ≤ b.id)
      db.reading_rooms).mem_iff
  · haveI h1 : IsTotal ReadingRoomRow (fun a b => a.id ≤ b.id) :=
      ⟨fun a b => Nat.le_total a.id b.id⟩
    haveI h2 : IsTrans ReadingRoomRow (fun a b => a.id ≤ b.id) :=
      ⟨fun a b c hab hbc => Nat.le_trans hab hbc⟩
    exact List.sorted_insertionSort _ _

end FOIA
